import Mathlib

/-!
Verification development for the terminal session engine (terminal.c).

The engine's pure algorithms are shallowly embedded: byte strings are
modelled as `List Nat` (each element one byte of the C `char *` buffer),
C `int` arithmetic that may go negative is modelled with `Int`, and the
fixed-size output buffer is modelled as explicit state passing.  Each
definition is a direct transcription of the corresponding C function;
the C source file and line numbers are noted on every definition.
-/

namespace Terminal

/-! ## UTF-8 width engine (terminal.c, unicode_char_width, lines 605-653) -/

/-- Display width of a Unicode codepoint.  Direct port of
`unicode_char_width` (terminal.c lines 605-653): control chars are 0,
ASCII is 1, combining marks and zero-width characters are 0, CJK and
kindred ranges are 2, a curated emoji range is 2, default 1. -/
def unicode_char_width (cp : Nat) : Nat :=
  if cp < 32 ∨ cp = 127 then 0
  else if cp < 127 then 1
  else if (0x0300 ≤ cp ∧ cp ≤ 0x036F) ∨ (0x1AB0 ≤ cp ∧ cp ≤ 0x1AFF) ∨
          (0x1DC0 ≤ cp ∧ cp ≤ 0x1DFF) ∨ (0x20D0 ≤ cp ∧ cp ≤ 0x20FF) ∨
          (0xFE00 ≤ cp ∧ cp ≤ 0xFE0F) ∨ (0xFE20 ≤ cp ∧ cp ≤ 0xFE2F) ∨
          cp = 0x200B ∨ cp = 0x200C ∨ cp = 0x200D ∨ cp = 0xFEFF then 0
  else if (0x1100 ≤ cp ∧ cp ≤ 0x115F) ∨ (0x2E80 ≤ cp ∧ cp ≤ 0x9FFF) ∨
          (0xAC00 ≤ cp ∧ cp ≤ 0xD7A3) ∨ (0xF900 ≤ cp ∧ cp ≤ 0xFAFF) ∨
          (0xFE10 ≤ cp ∧ cp ≤ 0xFE1F) ∨ (0xFE30 ≤ cp ∧ cp ≤ 0xFE6F) ∨
          (0xFF00 ≤ cp ∧ cp ≤ 0xFF60) ∨ (0xFFE0 ≤ cp ∧ cp ≤ 0xFFE6) ∨
          (0x20000 ≤ cp ∧ cp ≤ 0x2FFFF) ∨ (0x30000 ≤ cp ∧ cp ≤ 0x3FFFF) then 2
  else if (0x1F300 ≤ cp ∧ cp ≤ 0x1F9FF) ∨ (0x2600 ≤ cp ∧ cp ≤ 0x26FF) ∨
          (0x2700 ≤ cp ∧ cp ≤ 0x27BF) then 2
  else 1

/-- One UTF-8 decode step, returning `(width, bytesConsumed)`.  Direct
port of `terminal_utf8_char_width` (terminal.c lines 659-695).  The C
guards `(str[0] & 0xE0) == 0xC0 && len >= 2` etc. are rendered by
pattern-matching on the available continuation bytes: when the lead-byte
mask matches but the buffer is too short, the C chain falls through to
the invalid-UTF-8 branch `(1, 1)`, which is exactly what the shortfall
match arms below return (a 0xC0-masked lead fails the 0xE0 and 0xF0
masks, and so on). -/
def terminal_utf8_char_width (s : List Nat) : Nat × Nat :=
  match s with
  | [] => (0, 0)
  | b0 :: rest =>
    if b0 < 0x80 then (unicode_char_width b0, 1)
    else if b0 &&& 0xE0 = 0xC0 then
      match rest with
      | b1 :: _ => (unicode_char_width (((b0 &&& 0x1F) <<< 6) ||| (b1 &&& 0x3F)), 2)
      | [] => (1, 1)
    else if b0 &&& 0xF0 = 0xE0 then
      match rest with
      | b1 :: b2 :: _ =>
        (unicode_char_width (((b0 &&& 0x0F) <<< 12) ||| ((b1 &&& 0x3F) <<< 6) |||
          (b2 &&& 0x3F)), 3)
      | _ => (1, 1)
    else if b0 &&& 0xF8 = 0xF0 then
      match rest with
      | b1 :: b2 :: b3 :: _ =>
        (unicode_char_width (((b0 &&& 0x07) <<< 18) ||| ((b1 &&& 0x3F) <<< 12) |||
          ((b2 &&& 0x3F) <<< 6) ||| (b3 &&& 0x3F)), 4)
      | _ => (1, 1)
    else (1, 1)

/-- Display width of a UTF-8 byte string: port of
`terminal_display_width` (terminal.c lines 700-712).  The C loop
advances `pos` by the consumed byte count; since one byte of the input
is already split off by the pattern match, the recursive call drops
`bytes - 1` from the tail (on every non-empty input `bytes ≥ 1`, see
theorem utf8_step_consumes). -/
def terminal_display_width : List Nat → Nat
  | [] => 0
  | b0 :: rest =>
    let r := terminal_utf8_char_width (b0 :: rest)
    r.1 + terminal_display_width (rest.drop (r.2 - 1))
termination_by s => s.length
decreasing_by
  simp only [List.length_drop, List.length_cons]
  omega

/-- Number of UTF-8 characters in a byte string: port of
`terminal_utf8_strlen` (terminal.c lines 717-730). -/
def terminal_utf8_strlen : List Nat → Nat
  | [] => 0
  | b0 :: rest =>
    let r := terminal_utf8_char_width (b0 :: rest)
    1 + terminal_utf8_strlen (rest.drop (r.2 - 1))
termination_by s => s.length
decreasing_by
  simp only [List.length_drop, List.length_cons]
  omega

/-- C `isalpha` on an ASCII byte (the only bytes the escape-skipping
loop compares). -/
def isalpha_byte (c : Nat) : Bool :=
  (65 ≤ c && c ≤ 90) || (97 ≤ c && c ≤ 122)

/-- Visible display width excluding ANSI CSI escape sequences: port of
`display_width_strip_ansi` (terminal.c lines 735-758).  On `ESC [` the
C loop skips to the final byte (alphabetic or `~`), then skips that
final byte if still in bounds; this is the `dropWhile` followed by
`drop 1` below.  Otherwise it decodes one UTF-8 character as in
`terminal_display_width`. -/
def display_width_strip_ansi : List Nat → Nat
  | [] => 0
  | b0 :: rest =>
    if b0 = 27 ∧ rest.headD 0 = 91 ∧ rest ≠ [] then
      display_width_strip_ansi
        (((rest.drop 1).dropWhile (fun c => !(isalpha_byte c) && c ≠ 126)).drop 1)
    else
      let r := terminal_utf8_char_width (b0 :: rest)
      r.1 + display_width_strip_ansi (rest.drop (r.2 - 1))
termination_by s => s.length
decreasing_by
  · have h1 : ((rest.drop 1).dropWhile
        (fun c => !(isalpha_byte c) && c ≠ 126)).length ≤ (rest.drop 1).length :=
      (List.dropWhile_sublist _).length_le
    simp only [List.length_drop, List.length_cons] at h1 ⊢
    omega
  · simp only [List.length_drop, List.length_cons]
    omega

/-! ## Color resolver (terminal.c, terminal_parse_color, lines 764-882) -/

/-- Color support levels.  The numeric values come from the increasing
enum COLOR_NONE < COLOR_16 < COLOR_256 < COLOR_TRUECOLOR declared in
php_terminal.h (the code only ever compares them with `>=`, and the
spec's capability ladder None < Basic16 < Extended256 < TrueColor fixes
the order). -/
def COLOR_NONE : Nat := 0

def COLOR_16 : Nat := 1

def COLOR_256 : Nat := 2

def COLOR_TRUECOLOR : Nat := 3

/-- ASCII decimal digits of a number, as the bytes `snprintf %d` would
produce for a nonnegative value. -/
def natToDec (n : Nat) : List Nat :=
  (Nat.repr n).toList.map (fun c => c.toNat)

/-- The color-name table `color_map` (terminal.c lines 771-790):
name, foreground SGR code, background SGR code. -/
def color_map : List (String × Nat × Nat) :=
  [("black", 30, 40), ("red", 31, 41), ("green", 32, 42),
   ("yellow", 33, 43), ("blue", 34, 44), ("magenta", 35, 45),
   ("cyan", 36, 46), ("white", 37, 47),
   ("bright_black", 90, 100), ("bright_red", 91, 101),
   ("bright_green", 92, 102), ("bright_yellow", 93, 103),
   ("bright_blue", 94, 104), ("bright_magenta", 95, 105),
   ("bright_cyan", 96, 106), ("bright_white", 97, 107),
   ("default", 39, 49)]

/-- ASCII lower-casing of one character, as C `tolower` does in the C
locale (used through `strcasecmp` in the named-color lookup). -/
def tolower_char (c : Char) : Char :=
  if 65 ≤ c.toNat ∧ c.toNat ≤ 90 then Char.ofNat (c.toNat + 32) else c

/-- `strcasecmp(a, b) == 0`: case-insensitive ASCII string equality. -/
def strcaseeq (a b : String) : Bool :=
  a.toList.map tolower_char = b.toList.map tolower_char

/-- Value of one ASCII hex digit, or none. -/
def hexDigit (c : Char) : Option Nat :=
  if 48 ≤ c.toNat ∧ c.toNat ≤ 57 then some (c.toNat - 48)
  else if 97 ≤ c.toNat ∧ c.toNat ≤ 102 then some (c.toNat - 87)
  else if 65 ≤ c.toNat ∧ c.toNat ≤ 70 then some (c.toNat - 55)
  else none

/-- A color value as passed to `terminal_parse_color`: either a PHP
string (named color or `#hex`) or an `[r, g, b]` array of longs. -/
inductive ColorSpec where
  | str (s : String)
  | rgb (r g b : Int)

/-- C `int` clamp of a channel into `[0, 255]` (terminal.c lines
865-867). -/
def clamp255 (x : Int) : Nat :=
  (max 0 (min 255 x)).toNat

/-- Emit the SGR fragment for an RGB triple already clamped to
`[0, 255]`, given the capability level: the shared tail of both the hex
and the array branch of `terminal_parse_color` (lines 819-830 and
869-878).  TrueColor gives `38;2;r;g;b` (48 for background), 256-color
gives `38;5;idx` with `idx = 16 + (r/51)*36 + (g/51)*6 + b/51`, and
anything below gives `30+index(+60)` (40 for background) with the
3-bit index from the per-channel `> 127` tests and the bright offset
when `r+g+b > 384`. -/
def rgb_fragment (r g b : Nat) (is_bg : Bool) (color_support : Nat) : List Nat :=
  if COLOR_TRUECOLOR ≤ color_support then
    natToDec (if is_bg then 48 else 38) ++ [59, 50, 59] ++
      natToDec r ++ [59] ++ natToDec g ++ [59] ++ natToDec b
  else if COLOR_256 ≤ color_support then
    natToDec (if is_bg then 48 else 38) ++ [59, 53, 59] ++
      natToDec (16 + (r / 51) * 36 + (g / 51) * 6 + b / 51)
  else
    let bright : Bool := 384 < r + g + b
    let index := (if 127 < r then 1 else 0) ||| (if 127 < g then 2 else 0) |||
      (if 127 < b then 4 else 0)
    natToDec ((if is_bg then 40 else 30) + index + (if bright then 60 else 0))

/-- Parse a color value into an SGR parameter fragment (bytes), or
`none` where the C function returns -1: port of `terminal_parse_color`
(terminal.c lines 796-882).  The hex branch is modelled only for
well-formed hex strings; on malformed hex the C code ignores the
`sscanf` failure and reads indeterminate values (undefined behavior),
which the model maps to `none`.  Named colors are looked up with
`strcasecmp` and their fixed code is emitted with no capability
check, exactly as in the C. -/
def terminal_parse_color (color : ColorSpec) (is_bg : Bool)
    (color_support : Nat) : Option (List Nat) :=
  match color with
  | .str name =>
    if name.toList.headD ' ' = '#' ∧ (name.length = 7 ∨ name.length = 4) then
      match (name.toList.drop 1).mapM hexDigit with
      | some ds =>
        if h : ds.length = 6 then
          some (rgb_fragment (16 * ds[0] + ds[1]) (16 * ds[2] + ds[3])
            (16 * ds[4] + ds[5]) is_bg color_support)
        else if h4 : ds.length = 3 then
          some (rgb_fragment (ds[0] * 17) (ds[1] * 17) (ds[2] * 17)
            is_bg color_support)
        else none
      | none => none
    else
      match color_map.find? (fun cm => strcaseeq name cm.1) with
      | some cm => some (natToDec (if is_bg then cm.2.2 else cm.2.1))
      | none => none
  | .rgb r g b =>
    some (rgb_fragment (clamp255 r) (clamp255 g) (clamp255 b) is_bg color_support)

/-! ## Style assembly (terminal.c, terminal_apply_style, lines 887-959) -/

/-- The style options array of `terminal_apply_style`.  A `none` color
stands for an absent `fg`/`bg` key; a `false` boolean stands for an
absent key or one whose value is not `zend_is_true` (the C treats both
identically). -/
structure StyleSet where
  fg : Option ColorSpec := none
  bg : Option ColorSpec := none
  bold : Bool := false
  dim : Bool := false
  italic : Bool := false
  underline : Bool := false
  blink : Bool := false
  reverse : Bool := false

/-- The accumulated `codes` fragments of `terminal_apply_style` in the
order the C builds them: fg, bg, bold(1), dim(2), italic(3),
underline(4), blink(5), reverse(7).  A color whose parse fails
contributes nothing (`cc_len > 0` check, lines 904 and 914). -/
def style_codes (styles : StyleSet) (color_support : Nat) : List (List Nat) :=
  (match styles.fg with
   | some c => (terminal_parse_color c false color_support).toList
   | none => []) ++
  (match styles.bg with
   | some c => (terminal_parse_color c true color_support).toList
   | none => []) ++
  (if styles.bold then [[49]] else []) ++
  (if styles.dim then [[50]] else []) ++
  (if styles.italic then [[51]] else []) ++
  (if styles.underline then [[52]] else []) ++
  (if styles.blink then [[53]] else []) ++
  (if styles.reverse then [[55]] else [])

/-- Join code fragments with `;` (byte 59), as the repeated
`snprintf("%s%s", codes_len > 0 ? ";" : "", ...)` does. -/
def join_codes : List (List Nat) → List Nat
  | [] => []
  | [c] => c
  | c :: cs => c ++ 59 :: join_codes cs

/-- Apply styles to text: port of `terminal_apply_style` (terminal.c
lines 887-959).  With no accumulated codes the input text is returned
unchanged (line 940-943); otherwise the result is
`ESC [ codes m text ESC [ 0 m` (bytes 27 91 ... 109). -/
def terminal_apply_style (text : List Nat) (styles : StyleSet)
    (color_support : Nat) : List Nat :=
  let codes := style_codes styles color_support
  if codes = [] then text
  else [27, 91] ++ join_codes codes ++ [109] ++ text ++ [27, 91, 48, 109]

/-! ## Table renderer, pass 1 (terminal.c, terminal_render_table,
lines 1140-1175) -/

/-- One data row's contribution to the column widths: for each column
index below `num_cols` that the row has a cell for, take the max of the
current width and the cell's `terminal_display_width` (terminal.c lines
1156-1175; the `i >= num_cols` break is the `ws` exhaustion case, and a
short row simply leaves the remaining widths unchanged). -/
def table_row_update : List Nat → List (List Nat) → List Nat
  | ws, [] => ws
  | [], _ => []
  | w :: ws, c :: cs => max w (terminal_display_width c) :: table_row_update ws cs

/-- Pass 1 of `terminal_render_table` (terminal.c lines 1140-1175):
initialise each column's width with the header's
`terminal_display_width` (lines 1144-1153), then fold every row in with
`table_row_update`.  Note that the row cells are measured with
`terminal_display_width`, not with `display_width_strip_ansi` (which
pass 2 uses, lines 1234 and 1313). -/
def terminal_table_col_widths (headers : List (List Nat))
    (rows : List (List (List Nat))) : List Nat :=
  rows.foldl table_row_update (headers.map terminal_display_width)

/-- Pass 1 as the specification document describes it: the column width
is the max of the header's display width and every row-cell's
ANSI-stripped display width.  This definition follows the spec's words
(spec.md section 4.5) and exists only to be compared with
`terminal_table_col_widths`, the definition taken from the source. -/
def spec_table_col_widths (headers : List (List Nat))
    (rows : List (List (List Nat))) : List Nat :=
  (List.range headers.length).map (fun i =>
    rows.foldl (fun a row => max a (display_width_strip_ansi (row.getD i [])))
      (terminal_display_width (headers.getD i [])))

/-! ## Progress bar (terminal.c, lines 1603-1620 and 2382-2488) -/

/-- The mutable fields of `progress_bar_t` the mutators touch.  `total`
and `current` are C `int`s, modelled as `Int`; rendering state
(timestamps, last width) does not affect the mutators and is omitted. -/
structure ProgressBar where
  total : Int
  current : Int
  label : List Nat
  finished : Bool

/-- `Terminal::progressBar(total, label)` (terminal.c lines 2384-2406
together with `progress_bar_create`, lines 1603-1620): `current` starts
at 0 and `finished` at false. -/
def progress_bar_new (total : Int) (label : List Nat) : ProgressBar :=
  ⟨total, 0, label, false⟩

/-- `ProgressBar::advance(step)` (terminal.c lines 2411-2430): no-op
when finished; otherwise add `step` and clamp only at `total` (the C
has no lower-bound check here). -/
def progress_bar_advance (bar : ProgressBar) (step : Int) : ProgressBar :=
  if bar.finished then bar
  else
    let c := bar.current + step
    { bar with current := if bar.total < c then bar.total else c }

/-- `ProgressBar::set(current)` (terminal.c lines 2435-2452): no-op
when finished; otherwise clamp the new position into `[0, total]`. -/
def progress_bar_set (bar : ProgressBar) (n : Int) : ProgressBar :=
  if bar.finished then bar
  else
    let c := if n < 0 then 0 else n
    { bar with current := if bar.total < c then bar.total else c }

/-- `ProgressBar::finish(message)` (terminal.c lines 2457-2488),
restricted to its effect on the bar's fields: no-op when finished;
otherwise mark finished and clamp `current` to `total` (the message
output goes to the write buffer and touches no bar field). -/
def progress_bar_finish (bar : ProgressBar) : ProgressBar :=
  if bar.finished then bar
  else { bar with finished := true, current := bar.total }

/-- A mutator call on a progress bar. -/
inductive PBOp where
  | advance (step : Int)
  | set (n : Int)
  | finish

/-- Apply one mutator call. -/
def pb_apply : ProgressBar → PBOp → ProgressBar
  | bar, .advance s => progress_bar_advance bar s
  | bar, .set n => progress_bar_set bar n
  | bar, .finish => progress_bar_finish bar

/-- Apply a sequence of mutator calls in order. -/
def pb_run (bar : ProgressBar) (ops : List PBOp) : ProgressBar :=
  ops.foldl pb_apply bar

/-! ## Session state machine (terminal.c, terminal_exit_raw,
lines 145-177) -/

/-- The `state_flags` bitset of `terminal_state_t`: TERM_STATE_RAW,
TERM_STATE_ALT_SCREEN, TERM_STATE_CURSOR_HIDDEN, as three booleans. -/
structure SessionFlags where
  raw : Bool
  altScreen : Bool
  cursorHidden : Bool
deriving DecidableEq

/-- Flag effect of `terminal_cursor_show(1)` (terminal.c lines
499-514): clears TERM_STATE_CURSOR_HIDDEN (the emitted escape string
goes through the output buffer and touches no flag). -/
def cursor_show_flags (st : SessionFlags) : SessionFlags :=
  { st with cursorHidden := false }

/-- Flag effect of `terminal_alternate_screen(0)` (terminal.c lines
519-534): clears TERM_STATE_ALT_SCREEN. -/
def alternate_screen_off_flags (st : SessionFlags) : SessionFlags :=
  { st with altScreen := false }

/-- Port of `terminal_exit_raw` (terminal.c lines 145-177), with the
outcome of the `tcsetattr` restore call supplied as the oracle
`restoreOk`.  Returns the new flags and the C return value.  Not in raw
mode: no-op success.  Otherwise: flush (no flag effect), unhide the
cursor if hidden, leave the alternate screen if active, then attempt
the restore; on failure return -1 immediately — the C returns at line
168 *before* the `state_flags &= ~TERM_STATE_RAW` at line 171 — and on
success clear TERM_STATE_RAW and restore signal handlers. -/
def terminal_exit_raw (st : SessionFlags) (restoreOk : Bool) :
    SessionFlags × Int :=
  if !st.raw then (st, 0)
  else
    let st1 := if st.cursorHidden then cursor_show_flags st else st
    let st2 := if st1.altScreen then alternate_screen_off_flags st1 else st1
    if !restoreOk then (st2, -1)
    else ({ st2 with raw := false }, 0)

/-! ## Output buffer (terminal.c, terminal_flush_buffer and
terminal_write, lines 363-400) -/

/-- `WRITE_BUFFER_SIZE`: the buffer is `char write_buffer[8192]`
(php_terminal.h, quoted in ARCHITECTURE.md). -/
def WRITE_BUFFER_SIZE : Nat := 8192

/-- The output buffer state: the pending bytes (`write_buffer` up to
`write_buffer_pos`) and the bytes already handed to the `write`
syscall, in order. -/
structure BufState where
  buf : List Nat
  out : List Nat

/-- Port of `terminal_flush_buffer` (terminal.c lines 363-372): hand
all pending bytes to `write` and reset the cursor. -/
def terminal_flush_buffer (st : BufState) : BufState :=
  if st.buf = [] then st else ⟨[], st.out ++ st.buf⟩

/-- Port of `terminal_write` (terminal.c lines 377-400): copy into the
buffer in a loop; each iteration copies `to_copy = min len available`
bytes and flushes whenever the cursor has reached the capacity.  The
loop iteration that starts with a full buffer (`available = 0`) copies
nothing and flushes; it appears here as the first branch, and every
other iteration as the second branch — the same copy-then-flush order
as the C loop body. -/
def terminal_write (st : BufState) (data : List Nat) : BufState :=
  match data with
  | [] => st
  | b0 :: rest =>
    if WRITE_BUFFER_SIZE ≤ st.buf.length then
      terminal_write (terminal_flush_buffer st) (b0 :: rest)
    else
      let to_copy := min (b0 :: rest).length (WRITE_BUFFER_SIZE - st.buf.length)
      let st2 : BufState := ⟨st.buf ++ (b0 :: rest).take to_copy, st.out⟩
      terminal_write
        (if WRITE_BUFFER_SIZE ≤ st2.buf.length then terminal_flush_buffer st2
         else st2)
        ((b0 :: rest).drop to_copy)
termination_by (data.length, st.buf.length)
decreasing_by
  · rename_i hfull
    apply Prod.Lex.right
    have hne : st.buf ≠ [] := by
      intro he
      rw [he] at hfull
      simp [WRITE_BUFFER_SIZE] at hfull
    simp only [terminal_flush_buffer, if_neg hne, List.length_nil]
    exact List.length_pos.mpr hne
  · rename_i hfull
    apply Prod.Lex.left
    simp only [List.length_drop, List.length_cons]
    simp only [WRITE_BUFFER_SIZE] at hfull ⊢
    omega

/-- One operation on the output buffer. -/
inductive BufOp where
  | write (data : List Nat)
  | flush

/-- Apply one buffer operation. -/
def buf_apply : BufState → BufOp → BufState
  | st, .write d => terminal_write st d
  | st, .flush => terminal_flush_buffer st

/-- Run a sequence of buffer operations from the initial state
(`write_buffer_pos = 0`, nothing written yet). -/
def buf_run (ops : List BufOp) : BufState :=
  ops.foldl buf_apply ⟨[], []⟩

/-- All bytes the operation sequence asks to write, in order. -/
def buf_written : List BufOp → List Nat
  | [] => []
  | .write d :: ops => d ++ buf_written ops
  | .flush :: ops => buf_written ops

/-- Whether a byte string contains an `ESC [` pair (byte 27 followed by
byte 91) anywhere — the pattern that makes `display_width_strip_ansi`
skip bytes.  Used to state for which inputs the plain and the stripped
display widths agree. -/
def hasEscBracket : List Nat → Bool
  | [] => false
  | [_] => false
  | a :: b :: t => (a = 27 && b = 91) || hasEscBracket (b :: t)

/-! ## Key decoder (terminal.c, terminal_read_key, lines 1423-1597) -/

/-- The outputs of one `terminal_read_key` call that returned 1: the
`key_name` written into the caller's buffer, and the UTF-8 bytes of
`key_char` (empty except for the literal-character case). -/
structure KeyEvent where
  name : String
  ch : List Nat
deriving DecidableEq

/-- The `buf[1] == '['` block of `terminal_read_key` (terminal.c lines
1480-1541): the CSI switch on `buf[2]`, given the bytes after ESC `[`.
The decoder indexes the NUL-terminated buffer: `buf[2]` may read the
terminator when the chunk has only two bytes, which `headD 0` models;
the `nread >= 4 && buf[3] == (tilde)` guards are equivalently rendered
as `getD 1 0 = 126` (126 differs from the 0 terminator, so the bound
check is subsumed), and likewise `nread >= 5 && buf[4] == (tilde)` as
`getD 2 0 = 126`.  The function-key arithmetic `buf[3] - '0'` is on C
`int`, hence `Int` here (`buf[2]` is `headD`, `buf[3]` is `getD 1`,
`buf[4]` is `getD 2`).  Every fall-through of the C switch ends at
the `strncpy(key_name, "esc", ...)` of line 1553. -/
def csi_decode (rest2 : List Nat) : KeyEvent :=
  if rest2.headD 0 = 65 then ⟨"up", []⟩
  else if rest2.headD 0 = 66 then ⟨"down", []⟩
  else if rest2.headD 0 = 67 then ⟨"right", []⟩
  else if rest2.headD 0 = 68 then ⟨"left", []⟩
  else if rest2.headD 0 = 72 then ⟨"home", []⟩
  else if rest2.headD 0 = 70 then ⟨"end", []⟩
  else if rest2.headD 0 = 49 then
    if rest2.getD 1 0 = 126 then ⟨"home", []⟩
    else if rest2.getD 2 0 = 126 then
      if 5 ≤ (rest2.getD 1 0 : Int) - 48 ∧ (rest2.getD 1 0 : Int) - 48 ≤ 8 then
        ⟨"f" ++ toString ((rest2.getD 1 0 : Int) - 48 - 4), []⟩
      else ⟨"esc", []⟩
    else ⟨"esc", []⟩
  else if rest2.headD 0 = 50 then
    if rest2.getD 1 0 = 126 then ⟨"insert", []⟩
    else if rest2.getD 2 0 = 126 then
      if 0 ≤ (rest2.getD 1 0 : Int) - 48 ∧ (rest2.getD 1 0 : Int) - 48 ≤ 4 then
        ⟨"f" ++ toString ((rest2.getD 1 0 : Int) - 48 + 9), []⟩
      else ⟨"esc", []⟩
    else ⟨"esc", []⟩
  else if rest2.headD 0 = 51 then
    if rest2.getD 1 0 = 126 then ⟨"delete", []⟩ else ⟨"esc", []⟩
  else if rest2.headD 0 = 52 then
    if rest2.getD 1 0 = 126 then ⟨"end", []⟩ else ⟨"esc", []⟩
  else if rest2.headD 0 = 53 then
    if rest2.getD 1 0 = 126 then ⟨"pageup", []⟩ else ⟨"esc", []⟩
  else if rest2.headD 0 = 54 then
    if rest2.getD 1 0 = 126 then ⟨"pagedown", []⟩ else ⟨"esc", []⟩
  else ⟨"esc", []⟩

/-- The `buf[1] == 'O'` block of `terminal_read_key` (terminal.c lines
1542-1550): SS3 function keys F1-F4 on `buf[2]`, unrecognized falls
through to "esc". -/
def ss3_decode (rest2 : List Nat) : KeyEvent :=
  if rest2.headD 0 = 80 then ⟨"f1", []⟩
  else if rest2.headD 0 = 81 then ⟨"f2", []⟩
  else if rest2.headD 0 = 82 then ⟨"f3", []⟩
  else if rest2.headD 0 = 83 then ⟨"f4", []⟩
  else ⟨"esc", []⟩

/-- The `buf[0] == ESC` branch of `terminal_read_key` (terminal.c lines
1473-1555), given the bytes after the ESC: a lone ESC is "esc",
`[` enters the CSI block, `O` the SS3 block, and anything else falls
through to "esc". -/
def escape_decode (rest : List Nat) : KeyEvent :=
  match rest with
  | [] => ⟨"esc", []⟩
  | b1 :: rest2 =>
    if b1 = 91 then csi_decode rest2
    else if b1 = 79 then ss3_decode rest2
    else ⟨"esc", []⟩

/-- Classification part of `terminal_read_key` (terminal.c lines
1467-1596), applied to the chunk of `nread` bytes one `read` returned:
escape sequences are handled by `escape_decode`, control bytes map to
enter/tab/backspace/ctrl+letter, 0x7F to backspace, and anything else
is decoded as one UTF-8 character (consuming exactly its byte length;
remaining bytes of the chunk are dropped).  The empty chunk is
unreachable (the C returns -1 on `nread <= 0` before classifying). -/
def terminal_read_key_classify (buf : List Nat) : KeyEvent :=
  match buf with
  | [] => ⟨"", []⟩
  | b0 :: rest =>
    if b0 = 27 then escape_decode rest
    else if b0 < 32 then
      if b0 = 13 ∨ b0 = 10 then ⟨"enter", []⟩
      else if b0 = 9 then ⟨"tab", []⟩
      else if b0 = 8 then ⟨"backspace", []⟩
      else ⟨"ctrl+" ++ String.mk [Char.ofNat (b0 + 96)], []⟩
    else if b0 = 127 then ⟨"backspace", []⟩
    else
      let r := terminal_utf8_char_width (b0 :: rest)
      ⟨"char", (b0 :: rest).take r.2⟩

/-! ## Helper lemmas -/

theorem pb_apply_total_eq (bar : ProgressBar) (op : PBOp) :
    (pb_apply bar op).total = bar.total := by
  cases op <;>
    simp only [pb_apply, progress_bar_advance, progress_bar_set,
      progress_bar_finish] <;>
    split_ifs <;> rfl

theorem pb_apply_le (bar : ProgressBar) (op : PBOp) (h0 : 0 ≤ bar.total)
    (h : bar.current ≤ bar.total) :
    (pb_apply bar op).current ≤ bar.total := by
  cases op <;>
    simp only [pb_apply, progress_bar_advance, progress_bar_set,
      progress_bar_finish] <;>
    split_ifs <;> (try simp) <;> omega

theorem pb_apply_nonneg (bar : ProgressBar) (op : PBOp) (h0 : 0 ≤ bar.total)
    (hc : 0 ≤ bar.current) (hs : ∀ s, op = PBOp.advance s → 0 ≤ s) :
    0 ≤ (pb_apply bar op).current := by
  cases op with
  | advance s =>
    have := hs s rfl
    simp only [pb_apply, progress_bar_advance]
    split_ifs <;> (try simp) <;> omega
  | set n =>
    simp only [pb_apply, progress_bar_set]
    split_ifs <;> (try simp) <;> omega
  | finish =>
    simp only [pb_apply, progress_bar_finish]
    split_ifs <;> (try simp) <;> omega

theorem pb_apply_finished_frozen (bar : ProgressBar) (op : PBOp)
    (h : bar.finished = true) : pb_apply bar op = bar := by
  cases op <;>
    simp [pb_apply, progress_bar_advance, progress_bar_set,
      progress_bar_finish, h]

theorem pb_run_inv : ∀ (ops : List PBOp) (bar : ProgressBar),
    0 ≤ bar.total → bar.current ≤ bar.total →
    (pb_run bar ops).total = bar.total ∧
      (pb_run bar ops).current ≤ bar.total := by
  intro ops
  induction ops with
  | nil => intro bar h0 h; exact ⟨rfl, h⟩
  | cons op ops ih =>
    intro bar h0 h
    have ht := pb_apply_total_eq bar op
    have hc := pb_apply_le bar op h0 h
    have := ih (pb_apply bar op) (ht ▸ h0) (ht ▸ hc)
    simp only [pb_run, List.foldl_cons] at *
    exact ⟨this.1.trans ht, ht ▸ this.2⟩

theorem pb_run_nonneg : ∀ (ops : List PBOp) (bar : ProgressBar),
    0 ≤ bar.total → 0 ≤ bar.current →
    (∀ s, PBOp.advance s ∈ ops → 0 ≤ s) →
    0 ≤ (pb_run bar ops).current := by
  intro ops
  induction ops with
  | nil => intro bar _ hc _; exact hc
  | cons op ops ih =>
    intro bar h0 hc hs
    have ht := pb_apply_total_eq bar op
    have hstep : ∀ s, op = PBOp.advance s → 0 ≤ s := by
      intro s he
      exact hs s (he ▸ List.mem_cons_self op ops)
    have hc2 := pb_apply_nonneg bar op h0 hc hstep
    have hs2 : ∀ s, PBOp.advance s ∈ ops → 0 ≤ s := by
      intro s hm
      exact hs s (List.mem_cons_of_mem op hm)
    have := ih (pb_apply bar op) (ht ▸ h0) hc2 hs2
    simpa [pb_run] using this

theorem table_row_update_length : ∀ (ws : List Nat) (row : List (List Nat)),
    (table_row_update ws row).length = ws.length := by
  intro ws
  induction ws with
  | nil => intro row; cases row <;> rfl
  | cons w ws ih =>
    intro row
    cases row with
    | nil => rfl
    | cons c cs => simp [table_row_update, ih]

theorem table_row_update_getD : ∀ (ws : List Nat) (row : List (List Nat))
    (i : Nat), i < ws.length →
    (table_row_update ws row).getD i 0 =
      max (ws.getD i 0) (terminal_display_width (row.getD i [])) := by
  intro ws
  induction ws with
  | nil => intro row i hi; simp at hi
  | cons w ws ih =>
    intro row i hi
    cases row with
    | nil =>
      simp [table_row_update, terminal_display_width]
    | cons c cs =>
      cases i with
      | zero => simp [table_row_update]
      | succ i =>
        simp only [table_row_update, List.getD_cons_succ]
        exact ih cs i (by simpa using hi)

theorem table_fold_getD : ∀ (rows : List (List (List Nat))) (init : List Nat)
    (i : Nat), i < init.length →
    (rows.foldl table_row_update init).getD i 0 =
      rows.foldl (fun a row => max a (terminal_display_width (row.getD i [])))
        (init.getD i 0) := by
  intro rows
  induction rows with
  | nil => intro init i hi; rfl
  | cons row rows ih =>
    intro init i hi
    simp only [List.foldl_cons]
    rw [ih (table_row_update init row) i
        (by rw [table_row_update_length]; exact hi),
      table_row_update_getD init row i hi]

theorem getD_map_display_width : ∀ (l : List (List Nat)) (i : Nat),
    i < l.length →
    (l.map terminal_display_width).getD i 0 =
      terminal_display_width (l.getD i []) := by
  intro l
  induction l with
  | nil => intro i hi; simp at hi
  | cons x l ih =>
    intro i hi
    cases i with
    | zero => simp
    | succ i => simpa using ih i (by simpa using hi)

theorem hasEscBracket_cons (a : Nat) (t : List Nat)
    (h : hasEscBracket (a :: t) = false) : hasEscBracket t = false := by
  cases t with
  | nil => rfl
  | cons b t2 =>
    simp only [hasEscBracket, Bool.or_eq_false_iff] at h
    exact h.2

theorem hasEscBracket_drop (n : Nat) : ∀ (l : List Nat),
    hasEscBracket l = false → hasEscBracket (l.drop n) = false := by
  induction n with
  | zero => intro l h; simpa using h
  | succ n ih =>
    intro l h
    cases l with
    | nil => simpa using h
    | cons a t => simpa using ih t (hasEscBracket_cons a t h)

theorem dw_eq_strip_aux : ∀ (n : Nat) (s : List Nat), s.length ≤ n →
    hasEscBracket s = false →
    terminal_display_width s = display_width_strip_ansi s := by
  intro n
  induction n with
  | zero =>
    intro s hs _
    have he : s = [] := List.length_eq_zero.mp (Nat.le_zero.mp hs)
    subst he
    simp [terminal_display_width, display_width_strip_ansi]
  | succ n ih =>
    intro s hs h
    cases s with
    | nil => simp [terminal_display_width, display_width_strip_ansi]
    | cons b0 rest =>
      have hguard : ¬(b0 = 27 ∧ rest.headD 0 = 91 ∧ rest ≠ []) := by
        rintro ⟨h27, h91, hne⟩
        cases rest with
        | nil => exact hne rfl
        | cons b1 t =>
          simp only [List.headD_cons] at h91
          subst h27
          subst h91
          simp [hasEscBracket] at h
      simp only [terminal_display_width, display_width_strip_ansi]
      rw [if_neg hguard]
      congr 1
      apply ih
      · have hd : (rest.drop ((terminal_utf8_char_width (b0 :: rest)).2 - 1)).length
            ≤ rest.length := by simp [List.length_drop]
        simp only [List.length_cons] at hs
        omega
      · exact hasEscBracket_drop _ rest (hasEscBracket_cons b0 rest h)

theorem flush_conserve (st : BufState) :
    (terminal_flush_buffer st).out ++ (terminal_flush_buffer st).buf =
      st.out ++ st.buf := by
  unfold terminal_flush_buffer
  split <;> simp_all

theorem flush_buf_le (st : BufState) :
    (terminal_flush_buffer st).buf.length ≤ st.buf.length := by
  unfold terminal_flush_buffer
  split <;> simp

theorem terminal_write_conserve (st : BufState) (data : List Nat) :
    (terminal_write st data).out ++ (terminal_write st data).buf =
      st.out ++ st.buf ++ data := by
  induction st, data using terminal_write.induct with
  | case1 st => simp [terminal_write]
  | case2 st b0 rest hfull ih =>
    rw [terminal_write.eq_2, if_pos hfull, ih, flush_conserve]
  | case3 st b0 rest hfull tc st2 ih =>
    have e : terminal_write st (b0 :: rest) =
        terminal_write
          (if WRITE_BUFFER_SIZE ≤ st2.buf.length then terminal_flush_buffer st2
           else st2)
          ((b0 :: rest).drop tc) := by
      rw [terminal_write.eq_2, if_neg hfull]
    rw [e]
    refine Eq.trans ih ?_
    have hst2 : st2 = ⟨st.buf ++ (b0 :: rest).take tc, st.out⟩ := rfl
    split
    · rw [flush_conserve, hst2]
      simp [List.append_assoc, List.take_append_drop]
    · rw [hst2]
      simp [List.append_assoc, List.take_append_drop]

theorem terminal_write_buf_le : ∀ (st : BufState) (data : List Nat),
    st.buf.length ≤ WRITE_BUFFER_SIZE →
    (terminal_write st data).buf.length ≤ WRITE_BUFFER_SIZE := by
  intro st data
  induction st, data using terminal_write.induct with
  | case1 st => intro h; simpa [terminal_write] using h
  | case2 st b0 rest hfull ih =>
    intro h
    rw [terminal_write.eq_2, if_pos hfull]
    exact ih (le_trans (flush_buf_le st) h)
  | case3 st b0 rest hfull tc st2 ih =>
    intro h
    have e : terminal_write st (b0 :: rest) =
        terminal_write
          (if WRITE_BUFFER_SIZE ≤ st2.buf.length then terminal_flush_buffer st2
           else st2)
          ((b0 :: rest).drop tc) := by
      rw [terminal_write.eq_2, if_neg hfull]
    rw [e]
    apply ih
    have h2 : st2.buf.length ≤ WRITE_BUFFER_SIZE := by
      have hst2 : st2 = ⟨st.buf ++ (b0 :: rest).take tc, st.out⟩ := rfl
      have htc : tc = (b0 :: rest).length ⊓ (WRITE_BUFFER_SIZE - st.buf.length) :=
        rfl
      rw [hst2]
      simp only [List.length_append, List.length_take, List.length_cons, htc]
      omega
    split
    · exact le_trans (flush_buf_le _) h2
    · exact h2

theorem buf_run_inv_aux : ∀ (ops : List BufOp) (st : BufState),
    st.buf.length ≤ WRITE_BUFFER_SIZE →
    (ops.foldl buf_apply st).buf.length ≤ WRITE_BUFFER_SIZE ∧
      (ops.foldl buf_apply st).out ++ (ops.foldl buf_apply st).buf =
        st.out ++ st.buf ++ buf_written ops := by
  intro ops
  induction ops with
  | nil => intro st h; exact ⟨h, by simp [buf_written]⟩
  | cons op ops ih =>
    intro st h
    cases op with
    | write d =>
      have h2 := terminal_write_buf_le st d h
      have h3 := ih (terminal_write st d) h2
      refine ⟨by simpa [buf_apply] using h3.1, ?_⟩
      simp only [List.foldl_cons, buf_apply, buf_written]
      rw [h3.2, terminal_write_conserve]
      simp [List.append_assoc]
    | flush =>
      have h2 : (terminal_flush_buffer st).buf.length ≤ WRITE_BUFFER_SIZE :=
        le_trans (flush_buf_le st) h
      have h3 := ih (terminal_flush_buffer st) h2
      refine ⟨by simpa [buf_apply] using h3.1, ?_⟩
      simp only [List.foldl_cons, buf_apply, buf_written]
      rw [h3.2, flush_conserve]

theorem clamp255_of_le (n : Nat) (h : n ≤ 255) : clamp255 (n : Int) = n := by
  unfold clamp255
  have h1 : min 255 (n : Int) = (n : Int) := min_eq_right (by exact_mod_cast h)
  rw [h1, max_eq_right (Int.natCast_nonneg n), Int.toNat_natCast]

theorem csi_collapse (rest2 : List Nat) :
    (csi_decode rest2).name ∈
      (["esc", "up", "down", "right", "left", "home", "end", "insert",
        "delete", "pageup", "pagedown", "f1", "f2", "f3", "f4", "f9", "f10",
        "f11", "f12", "f13"] : List String) := by
  rw [csi_decode]
  by_cases h1 : rest2.headD 0 = 65
  · rw [if_pos h1]
    decide
  rw [if_neg h1]
  by_cases h2 : rest2.headD 0 = 66
  · rw [if_pos h2]
    decide
  rw [if_neg h2]
  by_cases h3 : rest2.headD 0 = 67
  · rw [if_pos h3]
    decide
  rw [if_neg h3]
  by_cases h4 : rest2.headD 0 = 68
  · rw [if_pos h4]
    decide
  rw [if_neg h4]
  by_cases h5 : rest2.headD 0 = 72
  · rw [if_pos h5]
    decide
  rw [if_neg h5]
  by_cases h6 : rest2.headD 0 = 70
  · rw [if_pos h6]
    decide
  rw [if_neg h6]
  by_cases h7 : rest2.headD 0 = 49
  · rw [if_pos h7]
    by_cases h7a : rest2.getD 1 0 = 126
    · rw [if_pos h7a]
      decide
    rw [if_neg h7a]
    by_cases h7b : rest2.getD 2 0 = 126
    · rw [if_pos h7b]
      by_cases h7c : 5 ≤ (rest2.getD 1 0 : Int) - 48 ∧
          (rest2.getD 1 0 : Int) - 48 ≤ 8
      · rw [if_pos h7c]
        obtain ⟨ha, hb⟩ := h7c
        have hx : rest2.getD 1 0 = 53 ∨ rest2.getD 1 0 = 54 ∨ rest2.getD 1 0 = 55 ∨ rest2.getD 1 0 = 56 := by omega
        rcases hx with hx | hx | hx | hx <;> rw [hx] <;> decide
      · rw [if_neg h7c]
        decide
    · rw [if_neg h7b]
      decide
  rw [if_neg h7]
  by_cases h8 : rest2.headD 0 = 50
  · rw [if_pos h8]
    by_cases h8a : rest2.getD 1 0 = 126
    · rw [if_pos h8a]
      decide
    rw [if_neg h8a]
    by_cases h8b : rest2.getD 2 0 = 126
    · rw [if_pos h8b]
      by_cases h8c : 0 ≤ (rest2.getD 1 0 : Int) - 48 ∧
          (rest2.getD 1 0 : Int) - 48 ≤ 4
      · rw [if_pos h8c]
        obtain ⟨ha, hb⟩ := h8c
        have hx : rest2.getD 1 0 = 48 ∨ rest2.getD 1 0 = 49 ∨ rest2.getD 1 0 = 50 ∨ rest2.getD 1 0 = 51 ∨ rest2.getD 1 0 = 52 := by omega
        rcases hx with hx | hx | hx | hx | hx <;> rw [hx] <;> decide
      · rw [if_neg h8c]
        decide
    · rw [if_neg h8b]
      decide
  rw [if_neg h8]
  by_cases h9 : rest2.headD 0 = 51
  · rw [if_pos h9]
    by_cases h9a : rest2.getD 1 0 = 126
    · rw [if_pos h9a]
      decide
    rw [if_neg h9a]
    decide
  rw [if_neg h9]
  by_cases h10 : rest2.headD 0 = 52
  · rw [if_pos h10]
    by_cases h10a : rest2.getD 1 0 = 126
    · rw [if_pos h10a]
      decide
    rw [if_neg h10a]
    decide
  rw [if_neg h10]
  by_cases h11 : rest2.headD 0 = 53
  · rw [if_pos h11]
    by_cases h11a : rest2.getD 1 0 = 126
    · rw [if_pos h11a]
      decide
    rw [if_neg h11a]
    decide
  rw [if_neg h11]
  by_cases h12 : rest2.headD 0 = 54
  · rw [if_pos h12]
    by_cases h12a : rest2.getD 1 0 = 126
    · rw [if_pos h12a]
      decide
    rw [if_neg h12a]
    decide
  rw [if_neg h12]
  decide

theorem ss3_collapse (rest2 : List Nat) :
    (ss3_decode rest2).name ∈
      (["esc", "up", "down", "right", "left", "home", "end", "insert",
        "delete", "pageup", "pagedown", "f1", "f2", "f3", "f4", "f9", "f10",
        "f11", "f12", "f13"] : List String) := by
  rw [ss3_decode]
  by_cases g1 : rest2.headD 0 = 80
  · rw [if_pos g1]
    decide
  rw [if_neg g1]
  by_cases g2 : rest2.headD 0 = 81
  · rw [if_pos g2]
    decide
  rw [if_neg g2]
  by_cases g3 : rest2.headD 0 = 82
  · rw [if_pos g3]
    decide
  rw [if_neg g3]
  by_cases g4 : rest2.headD 0 = 83
  · rw [if_pos g4]
    decide
  rw [if_neg g4]
  decide

theorem escape_decode_collapse (rest : List Nat) :
    (escape_decode rest).name ∈
      (["esc", "up", "down", "right", "left", "home", "end", "insert",
        "delete", "pageup", "pagedown", "f1", "f2", "f3", "f4", "f9", "f10",
        "f11", "f12", "f13"] : List String) := by
  rcases rest with _ | ⟨b1, rest2⟩
  · decide
  · rw [escape_decode.eq_2]
    by_cases h91 : b1 = 91
    · rw [if_pos h91]
      exact csi_collapse rest2
    rw [if_neg h91]
    by_cases h79 : b1 = 79
    · rw [if_pos h79]
      exact ss3_collapse rest2
    rw [if_neg h79]
    decide

/-! ## Claim theorems -/

/-- C1: the claim states that a failed restore in `terminal_exit_raw`
still clears the in-memory state flags.  Counterexample: from raw mode
with no other flag set, a failing restore returns -1 but leaves
TERM_STATE_RAW set — the engine does still report itself in raw mode. -/
theorem exit_raw_failure_cex :
    ((terminal_exit_raw ⟨true, false, false⟩ false).1).raw = true ∧
      (terminal_exit_raw ⟨true, false, false⟩ false).2 = -1 := by
  decide

/-- C1 (amended): when `exit()` is called in raw mode, a failed restore
is reported (-1) with TERM_STATE_RAW left set (only CursorHidden and
AltScreenActive are cleared by the pre-restore cleanup), and a
successful restore returns 0 with all flags cleared. -/
theorem exit_raw_flag_behaviour (st : SessionFlags) (h : st.raw = true) :
    terminal_exit_raw st false = (⟨true, false, false⟩, -1) ∧
      terminal_exit_raw st true = (⟨false, false, false⟩, 0) := by
  rcases st with ⟨r, a, c⟩
  cases h
  cases a <;> cases c <;> decide

/-- Witness for exit_raw_flag_behaviour at the concrete state with all
three flags set. -/
theorem exit_raw_flag_behaviour_witness :
    terminal_exit_raw ⟨true, true, true⟩ false = (⟨true, false, false⟩, -1) ∧
      terminal_exit_raw ⟨true, true, true⟩ true = (⟨false, false, false⟩, 0) :=
  exit_raw_flag_behaviour ⟨true, true, true⟩ rfl

/-- C3: the claim states `current` stays in `[0, total]` under
arbitrary integer arguments.  Counterexample: `advance(-5)` on a fresh
bar with total 10 drives `current` to -5 — the C advance has no lower
clamp. -/
theorem progress_bar_advance_negative_cex :
    (pb_run (progress_bar_new 10 []) [PBOp.advance (-5)]).current = -5 ∧
      ¬(0 ≤ (pb_run (progress_bar_new 10 []) [PBOp.advance (-5)]).current) := by
  decide

/-- C3 (amended): for a bar created with total T ≥ 0, after any
sequence of advance/set/finish calls `current ≤ T` and the total is
unchanged; `current` also stays ≥ 0 provided every advance step is
nonnegative (set clamps below on its own, but a negative advance step
can drive `current` below 0); and once `finished` is set, every
mutator leaves the bar (current, total, label, finished) unchanged. -/
theorem progress_bar_clamp_behaviour (T : Int) (label : List Nat)
    (ops : List PBOp) (hT : 0 ≤ T) :
    (pb_run (progress_bar_new T label) ops).total = T ∧
      (pb_run (progress_bar_new T label) ops).current ≤ T ∧
      ((∀ s, PBOp.advance s ∈ ops → 0 ≤ s) →
        0 ≤ (pb_run (progress_bar_new T label) ops).current) ∧
      (∀ (bar : ProgressBar) (op : PBOp), bar.finished = true →
        pb_apply bar op = bar) := by
  have h1 := pb_run_inv ops (progress_bar_new T label) hT (by exact hT)
  refine ⟨h1.1, h1.2, ?_, ?_⟩
  · intro hs
    exact pb_run_nonneg ops (progress_bar_new T label) hT le_rfl hs
  · intro bar op h
    exact pb_apply_finished_frozen bar op h

/-- Witness for progress_bar_clamp_behaviour: a concrete run with
total 10 and a mix of mutators. -/
theorem progress_bar_clamp_behaviour_witness :
    (0:Int) ≤ 10 ∧
      ((pb_run (progress_bar_new 10 [76]) [PBOp.advance 4, PBOp.set 20,
        PBOp.finish]).total = 10 ∧
       (pb_run (progress_bar_new 10 [76]) [PBOp.advance 4, PBOp.set 20,
        PBOp.finish]).current ≤ 10 ∧
       ((∀ s, PBOp.advance s ∈ [PBOp.advance 4, PBOp.set 20, PBOp.finish] →
          0 ≤ s) →
        0 ≤ (pb_run (progress_bar_new 10 [76]) [PBOp.advance 4, PBOp.set 20,
          PBOp.finish]).current) ∧
       (∀ (bar : ProgressBar) (op : PBOp), bar.finished = true →
        pb_apply bar op = bar)) :=
  ⟨by decide,
   progress_bar_clamp_behaviour 10 [76] [PBOp.advance 4, PBOp.set 20,
     PBOp.finish] (by decide)⟩

/-- C4: styling with the empty style set (no fg, no bg, no true boolean
attribute) returns the input text byte-for-byte unchanged, with no
escape prefix or reset suffix, at every capability level. -/
theorem apply_style_empty_identity (text : List Nat) (support : Nat) :
    terminal_apply_style text {} support = text :=
  rfl

/-- C5: the claim states that at capability None a named color "red"
contributes no escape fragment and the style call returns the text
unchanged.  Counterexample: styling "X" (byte 88) with fg "red" at
COLOR_NONE wraps it as `ESC[31m X ESC[0m` — the named-color path never
consults the capability. -/
theorem style_none_red_cex :
    terminal_apply_style [88] { fg := some (ColorSpec.str "red") }
        COLOR_NONE = [27, 91, 51, 49, 109, 88, 27, 91, 48, 109] ∧
      terminal_apply_style [88] { fg := some (ColorSpec.str "red") }
        COLOR_NONE ≠ [88] := by
  decide

/-- C5 (amended): a named color resolves to its fixed SGR code
regardless of the detected capability — only hex and RGB colors
degrade.  At every capability level, including None, styling text with
fg "red" yields `ESC[31m` + text + `ESC[0m`. -/
theorem named_color_ignores_capability (text : List Nat) (support : Nat) :
    terminal_apply_style text { fg := some (ColorSpec.str "red") } support =
      [27, 91, 51, 49, 109] ++ text ++ [27, 91, 48, 109] :=
  rfl

/-- C10: one decode step of `terminal_utf8_char_width` on a non-empty
input consumes between 1 and 4 bytes, so every decode loop
(display width, strlen, ANSI-stripped width) strictly advances and
terminates on every input, malformed UTF-8 included (the Lean
definitions above are accepted as total on exactly this ground). -/
theorem utf8_step_consumes (s : List Nat) (h : s ≠ []) :
    (terminal_utf8_char_width s).2 ∈ ([1, 2, 3, 4] : List Nat) ∧
      (s.drop (terminal_utf8_char_width s).2).length < s.length := by
  rcases s with _ | ⟨b0, _ | ⟨b1, _ | ⟨b2, _ | ⟨b3, r⟩⟩⟩⟩
  · exact absurd rfl h
  all_goals
    simp only [terminal_utf8_char_width]
    split_ifs <;> simp_arith [List.length_drop]

/-- Witness for utf8_step_consumes on the 3-byte CJK sequence for
U+4E2D. -/
theorem utf8_step_consumes_witness :
    ([228, 184, 173] : List Nat) ≠ [] ∧
      ((terminal_utf8_char_width [228, 184, 173]).2 ∈
          ([1, 2, 3, 4] : List Nat) ∧
        (([228, 184, 173] : List Nat).drop
            (terminal_utf8_char_width [228, 184, 173]).2).length <
          ([228, 184, 173] : List Nat).length) :=
  ⟨by decide, utf8_step_consumes [228, 184, 173] (by decide)⟩

/-- C2: the claim states that pass 1 measures row cells with the
ANSI-stripped display width.  Counterexample: header "H" with the
single styled cell `ESC [ 1 m A`: the code computes column width 4
(the escape bytes after ESC each count), while the spec's stripped
computation gives 1. -/
theorem table_pass1_cex :
    terminal_table_col_widths [[72]] [[[27, 91, 49, 109, 65]]] = [4] ∧
      spec_table_col_widths [[72]] [[[27, 91, 49, 109, 65]]] = [1] ∧
      terminal_table_col_widths [[72]] [[[27, 91, 49, 109, 65]]] ≠
        spec_table_col_widths [[72]] [[[27, 91, 49, 109, 65]]] := by
  have h1 : terminal_table_col_widths [[72]] [[[27, 91, 49, 109, 65]]] = [4] := by
    simp [terminal_table_col_widths, table_row_update, terminal_display_width,
      terminal_utf8_char_width, unicode_char_width]
  have h2 : spec_table_col_widths [[72]] [[[27, 91, 49, 109, 65]]] = [1] := by
    simp [spec_table_col_widths, display_width_strip_ansi,
      terminal_display_width, terminal_utf8_char_width, unicode_char_width,
      isalpha_byte, List.range_succ]
  exact ⟨h1, h2, by rw [h1, h2]; decide⟩

/-- C2 (amended): pass 1 computes every column's width as the max of
the header's display width and each row-cell's *plain* display width
(`terminal_display_width` — escape bytes other than ESC itself count),
so styled cell content does inflate the column width; the stripped
width is used only in pass 2. -/
theorem table_pass1_plain_width (headers : List (List Nat))
    (rows : List (List (List Nat))) (i : Nat) (hi : i < headers.length) :
    (terminal_table_col_widths headers rows).getD i 0 =
      rows.foldl (fun a row => max a (terminal_display_width (row.getD i [])))
        (terminal_display_width (headers.getD i [])) := by
  unfold terminal_table_col_widths
  rw [table_fold_getD rows _ i (by simpa using hi),
    getD_map_display_width headers i hi]

/-- Witness for table_pass1_plain_width on the one-column styled-cell
table. -/
theorem table_pass1_plain_width_witness :
    0 < ([[72]] : List (List Nat)).length ∧
      (terminal_table_col_widths [[72]] [[[27, 91, 49, 109, 65]]]).getD 0 0 =
        [[[27, 91, 49, 109, 65]]].foldl
          (fun a row => max a (terminal_display_width (row.getD 0 [])))
          (terminal_display_width (([[72]] : List (List Nat)).getD 0 [])) :=
  ⟨by decide,
   table_pass1_plain_width [[72]] [[[27, 91, 49, 109, 65]]] 0 (by decide)⟩

/-- C6: the claim states `displayWidth(s) = strippedDisplayWidth(style(s, {}))`
for every string.  The style part is an identity, but the equation
fails when `s` itself contains a CSI introducer: counterexample
`s = ESC [ m` has display width 2 and stripped width 0. -/
theorem display_width_strip_cex :
    terminal_display_width [27, 91, 109] = 2 ∧
      display_width_strip_ansi
        (terminal_apply_style [27, 91, 109] {} COLOR_NONE) = 0 ∧
      terminal_display_width [27, 91, 109] ≠
        display_width_strip_ansi
          (terminal_apply_style [27, 91, 109] {} COLOR_NONE) := by
  have e : terminal_apply_style [27, 91, 109] {} COLOR_NONE = [27, 91, 109] :=
    rfl
  have h1 : terminal_display_width [27, 91, 109] = 2 := by
    simp [terminal_display_width, terminal_utf8_char_width, unicode_char_width]
  have h2 : display_width_strip_ansi [27, 91, 109] = 0 := by
    simp [display_width_strip_ansi, isalpha_byte]
  exact ⟨h1, by rw [e]; exact h2, by rw [e, h1, h2]; decide⟩

/-- C6 (amended): for every byte string containing no `ESC [` pair,
the plain display width equals the ANSI-stripped display width of the
string styled with the empty style set (which is the string itself). -/
theorem display_width_eq_strip_no_csi (s : List Nat) (support : Nat)
    (h : hasEscBracket s = false) :
    terminal_display_width s =
      display_width_strip_ansi (terminal_apply_style s {} support) := by
  have e : terminal_apply_style s {} support = s := rfl
  rw [e]
  exact dw_eq_strip_aux s.length s le_rfl h

/-- Witness for display_width_eq_strip_no_csi on the plain string
"hi". -/
theorem display_width_eq_strip_no_csi_witness :
    hasEscBracket [104, 105] = false ∧
      terminal_display_width [104, 105] =
        display_width_strip_ansi (terminal_apply_style [104, 105] {} COLOR_16) :=
  ⟨by decide, display_width_eq_strip_no_csi [104, 105] COLOR_16 (by decide)⟩

/-- C7: the claim states `ESC [ 1 <digit> ~` maps to F5-F8 and
`ESC [ 2 <digit> ~` to F9-F12.  Counterexample: the chunk
`ESC [ 1 5 ~` is classified as "f1", not "f5" (the code maps digit d
to F(d-4), per its own comment "Function keys F1-F4"). -/
theorem read_key_fkey_cex :
    (terminal_read_key_classify [27, 91, 49, 53, 126]).name = "f1" ∧
      (terminal_read_key_classify [27, 91, 49, 53, 126]).name ≠ "f5" := by
  decide

/-- C7 (amended): `ESC [ 1 <digit> ~` with digit 5-8 is classified as
F1-F4 (digit minus 4), `ESC [ 2 <digit> ~` with digit 0-4 as F9-F13
(digit plus 9); `ESC [ <digit> ~` with a single digit maps to
Home/Insert/Delete/End/PageUp/PageDown; and every chunk starting with
ESC is classified as one of the recognized keys or collapses to Esc. -/
theorem read_key_escape_classification :
    ((terminal_read_key_classify [27, 91, 49, 53, 126]).name = "f1" ∧
      (terminal_read_key_classify [27, 91, 49, 54, 126]).name = "f2" ∧
      (terminal_read_key_classify [27, 91, 49, 55, 126]).name = "f3" ∧
      (terminal_read_key_classify [27, 91, 49, 56, 126]).name = "f4") ∧
    ((terminal_read_key_classify [27, 91, 50, 48, 126]).name = "f9" ∧
      (terminal_read_key_classify [27, 91, 50, 49, 126]).name = "f10" ∧
      (terminal_read_key_classify [27, 91, 50, 50, 126]).name = "f11" ∧
      (terminal_read_key_classify [27, 91, 50, 51, 126]).name = "f12" ∧
      (terminal_read_key_classify [27, 91, 50, 52, 126]).name = "f13") ∧
    ((terminal_read_key_classify [27, 91, 49, 126]).name = "home" ∧
      (terminal_read_key_classify [27, 91, 50, 126]).name = "insert" ∧
      (terminal_read_key_classify [27, 91, 51, 126]).name = "delete" ∧
      (terminal_read_key_classify [27, 91, 52, 126]).name = "end" ∧
      (terminal_read_key_classify [27, 91, 53, 126]).name = "pageup" ∧
      (terminal_read_key_classify [27, 91, 54, 126]).name = "pagedown") ∧
    (∀ rest : List Nat, (terminal_read_key_classify (27 :: rest)).name ∈
      (["esc", "up", "down", "right", "left", "home", "end", "insert",
        "delete", "pageup", "pagedown", "f1", "f2", "f3", "f4", "f9", "f10",
        "f11", "f12", "f13"] : List String)) := by
  refine ⟨by decide, by decide, by decide, ?_⟩
  intro rest
  exact escape_decode_collapse rest

/-- C8: for every sequence of write/flush operations starting from the
empty buffer, the write cursor never exceeds the fixed capacity
(a write that would overflow flushes first), and no byte is lost:
the bytes handed to the write syscall followed by the bytes still
buffered are exactly all bytes ever written, in order. -/
theorem write_buffer_invariant (ops : List BufOp) :
    (buf_run ops).buf.length ≤ WRITE_BUFFER_SIZE ∧
      (buf_run ops).out ++ (buf_run ops).buf = buf_written ops := by
  have h := buf_run_inv_aux ops ⟨[], []⟩ (by simp)
  simpa [buf_run] using h

/-- C9: for an RGB triple with channels in [0, 255], the resolver at
Extended256 emits `38;5;idx` (48 for background) with
`idx = 16 + 36*(r/51) + 6*(g/51) + (b/51)` — six quantization levels
per channel, index at most 231 — and at Basic16 or below emits
`30+index` (resp. `40+index`) plus 60 exactly when `r+g+b > 384`,
where index combines the per-channel `> 127` bits. -/
theorem rgb_color_degradation (r g b : Nat) (is_bg : Bool)
    (hr : r ≤ 255) (hg : g ≤ 255) (hb : b ≤ 255) :
    terminal_parse_color (.rgb r g b) is_bg COLOR_256 =
      some (natToDec (if is_bg then 48 else 38) ++ [59, 53, 59] ++
        natToDec (16 + 36 * (r / 51) + 6 * (g / 51) + b / 51)) ∧
      r / 51 ≤ 5 ∧ g / 51 ≤ 5 ∧ b / 51 ≤ 5 ∧
      16 + 36 * (r / 51) + 6 * (g / 51) + b / 51 ≤ 231 ∧
      (∀ support : Nat, support ≤ COLOR_16 →
        terminal_parse_color (.rgb r g b) is_bg support =
          some (natToDec ((if is_bg then 40 else 30) +
            ((if 127 < r then 1 else 0) + (if 127 < g then 2 else 0) +
              (if 127 < b then 4 else 0)) +
            (if 384 < r + g + b then 60 else 0)))) := by
  have er := clamp255_of_le r hr
  have eg := clamp255_of_le g hg
  have eb := clamp255_of_le b hb
  refine ⟨?_, by omega, by omega, by omega, by omega, ?_⟩
  · simp only [terminal_parse_color, er, eg, eb, rgb_fragment,
      COLOR_256, COLOR_TRUECOLOR]
    norm_num
    congr 1
    omega
  · intro support hsup
    simp only [COLOR_16] at hsup
    simp only [terminal_parse_color, er, eg, eb, rgb_fragment]
    rw [if_neg (by simp only [COLOR_TRUECOLOR]; omega),
      if_neg (by simp only [COLOR_256]; omega)]
    cases is_bg <;> split_ifs <;> first | rfl | (exfalso; simp_all)

/-- Witness for rgb_color_degradation at (200, 100, 50), foreground:
the Extended256 fragment is `38;5;130` and the Basic16 fragment `31`. -/
theorem rgb_color_degradation_witness :
    terminal_parse_color (.rgb 200 100 50) false COLOR_256 =
      some [51, 56, 59, 53, 59, 49, 51, 48] ∧
      terminal_parse_color (.rgb 200 100 50) false COLOR_16 =
        some [51, 49] := by
  have h := rgb_color_degradation 200 100 50 false (by decide) (by decide)
    (by decide)
  exact ⟨h.1.trans (by decide), (h.2.2.2.2.2 COLOR_16 le_rfl).trans (by decide)⟩

end Terminal
